import Mathlib

set_option maxRecDepth 100000

/-!
Verification development for the document validation / extraction pipeline.

Two lambda-style handlers — the input validator and the extractor — read a
document from an object store, send it to an inference service, and parse a
JSON object embedded in the free-form response text (slice from the first
left brace to the last right brace, parse, validate against a fixed schema).

The Python sources are shallowly embedded below.  External effects (the
object-store read and the inference call) are inputs of the embedded
functions: an `Except String` value stands for "the call returned" or "the
call raised an exception with this message".  The standard-library JSON
parser (`json.loads`) is modelled by an executable fuel-based parser over
the character list of the sliced substring; the pydantic schema validation
is modelled field by field with the documented lax-mode coercions: a bool
field accepts booleans, numbers whose value is exactly 0 or 1, and the
documented true/false-like strings (case-insensitive); a float field
accepts numbers — including the NaN / Infinity constants the Python parser
admits — booleans, and numeric strings per the Python float grammar; a str
field accepts only strings, as lax mode does not coerce numbers to str.
Handler results are modelled as the literal
key/value lists of the Python dict literals the handlers return, so that
the presence or absence of individual fields is directly observable.
-/

namespace DocPipeline

/-- Left curly brace, written via its code point. -/
def lbrace : Char := Char.ofNat 123

/-- Right curly brace, written via its code point. -/
def rbrace : Char := Char.ofNat 125

/-- JSON values as produced by the standard JSON parser.  A number is kept
as a decimal mantissa with a base-ten exponent; the Python parser also
accepts the constants NaN, Infinity and -Infinity, kept as dedicated
values. -/
inductive JVal where
  | null : JVal
  | bool (b : Bool) : JVal
  | num (mantissa : Int) (exp10 : Int) : JVal
  | nan : JVal
  | inf (neg : Bool) : JVal
  | str (s : String) : JVal
  | arr (elems : List JVal) : JVal
  | obj (members : List (String × JVal)) : JVal

/-- Dictionary lookup in a key/value list with unique keys (Python `d[k]`
on a dict built by the parser, and field access on the handler results). -/
def getKey (k : String) : List (String × JVal) → Option JVal
  | [] => none
  | (k2, v) :: rest => if k2 = k then some v else getKey k rest

/-- Python-dict insertion: a repeated key keeps its original position and
takes the latest value, a new key is appended. -/
def insertKV (k : String) (v : JVal) : List (String × JVal) → List (String × JVal)
  | [] => [(k, v)]
  | (k2, v2) :: rest =>
    if k2 = k then (k2, v) :: rest else (k2, v2) :: insertKV k v rest

/-- JSON whitespace. -/
def isWsChar (c : Char) : Bool := c = ' ' || c = '\t' || c = '\n' || c = '\r'

/-- Skip JSON whitespace. -/
def skipWs (cs : List Char) : List Char := cs.dropWhile isWsChar

/-- Value of a hexadecimal digit. -/
def hexVal (c : Char) : Option Nat :=
  if '0' ≤ c ∧ c ≤ '9' then some (c.toNat - 48)
  else if 'a' ≤ c ∧ c ≤ 'f' then some (c.toNat - 87)
  else if 'A' ≤ c ∧ c ≤ 'F' then some (c.toNat - 55)
  else none

/-- Read four hexadecimal digits (the payload of a \u escape). -/
def parseU4 : List Char → Option (Nat × List Char)
  | a :: b :: c :: d :: rest => do
    let x ← hexVal a
    let y ← hexVal b
    let z ← hexVal c
    let w ← hexVal d
    pure (x * 4096 + y * 256 + z * 16 + w, rest)
  | _ => none

/-- Single-character string escapes of JSON. -/
def escChar (c : Char) : Option Char :=
  if c = '"' then some '"'
  else if c = '\\' then some '\\'
  else if c = '/' then some '/'
  else if c = 'b' then some (Char.ofNat 8)
  else if c = 'f' then some (Char.ofNat 12)
  else if c = 'n' then some '\n'
  else if c = 'r' then some '\r'
  else if c = 't' then some '\t'
  else none

/-- Body of a JSON string, after the opening quote: the decoded characters
and the remaining input after the closing quote.  The strict mode of the
Python parser rejects unescaped control characters; \u escapes decode a
code unit, combining a surrogate pair into one character. -/
def parseStringBody : Nat → List Char → Option (List Char × List Char)
  | 0, _ => none
  | _ + 1, [] => none
  | fuel + 1, c :: cs =>
    if c = '"' then some ([], cs)
    else if c = '\\' then
      match cs with
      | [] => none
      | e :: cs2 =>
        if e = 'u' then
          match parseU4 cs2 with
          | none => none
          | some (n1, cs3) =>
            if 0xD800 ≤ n1 ∧ n1 < 0xDC00 then
              match cs3 with
              | '\\' :: 'u' :: cs4 =>
                match parseU4 cs4 with
                | some (n2, cs5) =>
                  if 0xDC00 ≤ n2 ∧ n2 < 0xE000 then
                    (parseStringBody fuel cs5).map
                      (fun p =>
                        (Char.ofNat (0x10000 + (n1 - 0xD800) * 1024 + (n2 - 0xDC00)) :: p.1,
                         p.2))
                  else (parseStringBody fuel cs3).map (fun p => (Char.ofNat n1 :: p.1, p.2))
                | none => (parseStringBody fuel cs3).map (fun p => (Char.ofNat n1 :: p.1, p.2))
              | _ => (parseStringBody fuel cs3).map (fun p => (Char.ofNat n1 :: p.1, p.2))
            else (parseStringBody fuel cs3).map (fun p => (Char.ofNat n1 :: p.1, p.2))
        else
          match escChar e with
          | some c2 => (parseStringBody fuel cs2).map (fun p => (c2 :: p.1, p.2))
          | none => none
    else if c.toNat < 32 then none
    else (parseStringBody fuel cs).map (fun p => (c :: p.1, p.2))

/-- Numeric value of a digit list. -/
def digitsVal (ds : List Char) : Nat :=
  ds.foldl (fun a c => a * 10 + (c.toNat - 48)) 0

/-- The integer part of a JSON number: a single 0, or a nonzero digit
followed by digits (the number grammar of the Python parser). -/
def parseIntDigits : List Char → Option (List Char × List Char)
  | [] => none
  | c :: cs =>
    if c = '0' then some ([c], cs)
    else if '1' ≤ c ∧ c ≤ '9' then
      some (c :: cs.takeWhile Char.isDigit, cs.dropWhile Char.isDigit)
    else none

/-- A JSON number starting at the head of the input: optional minus sign,
integer part, optional fraction (a dot followed by at least one digit,
otherwise the dot is left unconsumed), optional exponent (e or E, optional
sign, at least one digit, otherwise left unconsumed) — exactly the number
regex of the Python parser, which matches greedily and leaves any
non-matching tail to the caller. -/
def parseNumber (cs : List Char) : Option (JVal × List Char) :=
  let signed := match cs with
    | '-' :: rest => (true, rest)
    | _ => (false, cs)
  match parseIntDigits signed.2 with
  | none => none
  | some (ids, cs1) =>
    let frac : List Char × List Char :=
      match cs1 with
      | '.' :: cs1a =>
        let ds := cs1a.takeWhile Char.isDigit
        if ds.isEmpty then ([], cs1) else (ds, cs1a.dropWhile Char.isDigit)
      | _ => ([], cs1)
    let expPart : Option Int × List Char :=
      match frac.2 with
      | e :: cs2a =>
        if e = 'e' ∨ e = 'E' then
          match cs2a with
          | '+' :: cs2b =>
            let ds := cs2b.takeWhile Char.isDigit
            if ds.isEmpty then (none, frac.2)
            else (some (digitsVal ds : Int), cs2b.dropWhile Char.isDigit)
          | '-' :: cs2b =>
            let ds := cs2b.takeWhile Char.isDigit
            if ds.isEmpty then (none, frac.2)
            else (some (-(digitsVal ds : Int)), cs2b.dropWhile Char.isDigit)
          | _ =>
            let ds := cs2a.takeWhile Char.isDigit
            if ds.isEmpty then (none, frac.2)
            else (some (digitsVal ds : Int), cs2a.dropWhile Char.isDigit)
        else (none, frac.2)
      | [] => (none, frac.2)
    let mag : Nat := digitsVal (ids ++ frac.1)
    let mant : Int := if signed.1 then -(mag : Int) else (mag : Int)
    some (.num mant (expPart.1.getD 0 - (frac.1.length : Int)), expPart.2)

/-- Drop an expected literal from the head of the input. -/
def dropLit : List Char → List Char → Option (List Char)
  | cs, [] => some cs
  | [], _ :: _ => none
  | c :: cs, l :: ls => if c = l then dropLit cs ls else none

mutual

/-- One JSON value, after optional whitespace: the dispatch of the Python
scanner (object, array, string, the true / false / null literals, the NaN
and Infinity constants, or a number). -/
def parseValue : Nat → List Char → Option (JVal × List Char)
  | 0, _ => none
  | fuel + 1, cs0 =>
    match skipWs cs0 with
    | [] => none
    | c :: rest =>
      if c = lbrace then parseObjStart fuel rest
      else if c = '[' then parseArrStart fuel rest
      else if c = '"' then
        match parseStringBody (rest.length + 1) rest with
        | some (s, r) => some (.str (String.mk s), r)
        | none => none
      else
        match dropLit (c :: rest) (("true").toList) with
        | some r => some (.bool true, r)
        | none =>
          match dropLit (c :: rest) (("false").toList) with
          | some r => some (.bool false, r)
          | none =>
            match dropLit (c :: rest) (("null").toList) with
            | some r => some (.null, r)
            | none =>
              match dropLit (c :: rest) (("NaN").toList) with
              | some r => some (.nan, r)
              | none =>
                match dropLit (c :: rest) (("Infinity").toList) with
                | some r => some (.inf false, r)
                | none =>
                  match dropLit (c :: rest) (("-Infinity").toList) with
                  | some r => some (.inf true, r)
                  | none => parseNumber (c :: rest)

/-- Object body, right after the opening brace: either an immediate close
or a nonempty member list. -/
def parseObjStart : Nat → List Char → Option (JVal × List Char)
  | 0, _ => none
  | fuel + 1, cs =>
    match skipWs cs with
    | [] => none
    | c :: rest =>
      if c = rbrace then some (.obj [], rest)
      else parseMembers fuel [] (c :: rest)

/-- Members of an object, expecting a key here (so no trailing comma), with
the members accumulated so far under Python-dict insertion. -/
def parseMembers : Nat → List (String × JVal) → List Char → Option (JVal × List Char)
  | 0, _, _ => none
  | fuel + 1, acc, cs =>
    match skipWs cs with
    | [] => none
    | c :: rest =>
      if c = '"' then
        match parseStringBody (rest.length + 1) rest with
        | none => none
        | some (k, cs2) =>
          match skipWs cs2 with
          | ':' :: cs3 =>
            match parseValue fuel cs3 with
            | none => none
            | some (v, cs4) =>
              match skipWs cs4 with
              | ',' :: cs5 => parseMembers fuel (insertKV (String.mk k) v acc) cs5
              | c2 :: cs5 =>
                if c2 = rbrace then some (.obj (insertKV (String.mk k) v acc), cs5) else none
              | [] => none
          | _ => none
      else none

/-- Array body, right after the opening bracket. -/
def parseArrStart : Nat → List Char → Option (JVal × List Char)
  | 0, _ => none
  | fuel + 1, cs =>
    match skipWs cs with
    | [] => none
    | c :: rest =>
      if c = ']' then some (.arr [], rest)
      else parseArrElems fuel [] (c :: rest)

/-- Elements of an array, expecting a value here. -/
def parseArrElems : Nat → List JVal → List Char → Option (JVal × List Char)
  | 0, _, _ => none
  | fuel + 1, acc, cs =>
    match parseValue fuel cs with
    | none => none
    | some (v, cs2) =>
      match skipWs cs2 with
      | ',' :: cs3 => parseArrElems fuel (acc ++ [v]) cs3
      | c2 :: cs3 => if c2 = ']' then some (.arr (acc ++ [v]), cs3) else none
      | [] => none

end

/-- The model of `json.loads` on a character list: one value, surrounded
only by whitespace.  The fuel bounds the recursion depth; every nesting
level consumes at least one character, so the given budget is never the
reason a parse fails. -/
def jsonParseL (cs : List Char) : Option JVal :=
  match parseValue (cs.length * 4 + 16) cs with
  | some (v, rest) => if (skipWs rest).isEmpty then some v else none
  | none => none

/-- Index of the first character satisfying the predicate (Python
`str.find`, with None for -1). -/
def findFirst (p : Char → Bool) : List Char → Option Nat
  | [] => none
  | c :: cs => if p c then some 0 else (findFirst p cs).map (· + 1)

/-- Index of the last character satisfying the predicate (Python
`str.rfind`, with None for -1). -/
def findLast (p : Char → Bool) : List Char → Option Nat
  | [] => none
  | c :: cs =>
    match findLast p cs with
    | some i => some (i + 1)
    | none => if p c then some 0 else none

/-- The slicing step of both stages: `json_start = text.find` of the left
brace, `json_end = text.rfind` of the right brace, plus one; when either
brace is absent the stages raise (`json_start == -1 or json_end == 0`),
otherwise the slice `text[json_start:json_end]` is taken (which is empty
when the last right brace precedes the first left brace, exactly as in
Python slicing). -/
def sliceJson (cs : List Char) : Option (List Char) :=
  match findFirst (fun c => c == lbrace) cs, findLast (fun c => c == rbrace) cs with
  | some js, some je => some ((cs.drop js).take (je + 1 - js))
  | _, _ => none

/-- Failures of the structured-response parsing shared by the stages:
`parseError` is the explicitly raised "No JSON object found in the
response." and `schemaError` covers a slice `json.loads` rejects or a
parsed object the pydantic model rejects. -/
inductive PErr where
  | parseError (msg : String) : PErr
  | schemaError (msg : String) : PErr

/-- The structured-response parsing both stages perform on the raw
inference text: slice between the outermost braces, parse the slice as
JSON, validate against the stage's schema (the `decode` argument). -/
def parseStructured {α : Type} (decode : JVal → Option α) (raw : String) : Except PErr α :=
  match sliceJson raw.toList with
  | none => .error (.parseError ("No JSON object found in the response."))
  | some s =>
    match jsonParseL s with
    | none => .error (.schemaError ("the sliced substring is not valid JSON"))
    | some j =>
      match decode j with
      | some a => .ok a
      | none => .error (.schemaError ("the parsed JSON does not match the schema"))

/-- A required string field of a pydantic model: present and a JSON
string.  Pydantic's lax mode does not coerce numbers, booleans or null to
str, so only a string passes. -/
def reqStr (k : String) (kvs : List (String × JVal)) : Option JVal :=
  match getKey k kvs with
  | some (.str s) => some (.str s)
  | _ => none

/-- Does the number with the given decimal mantissa and base-ten exponent
equal the integer v? -/
def numIsVal (m e v : Int) : Bool :=
  if 0 ≤ e then m * 10 ^ e.toNat == v else m == v * 10 ^ (-e).toNat

/-- Lowercase a character list (the documented bool-string matching and the
inf / nan literals of float parsing are case-insensitive). -/
def lowerChars (cs : List Char) : List Char := cs.map Char.toLower

/-- Whitespace stripped by Python around a float literal. -/
def isPyWs (c : Char) : Bool :=
  c = ' ' || c = '\t' || c = '\n' || c = '\r' || c = Char.ofNat 11 || c = Char.ofNat 12

/-- An optional leading sign of a float literal: the negative flag and the
rest. -/
def stripSign : List Char → Bool × List Char
  | '-' :: rest => (true, rest)
  | '+' :: rest => (false, rest)
  | cs => (false, cs)

/-- PEP-515 underscore placement: every underscore must stand directly
between two digits. -/
def underscoresOk : List Char → Bool
  | a :: '_' :: b :: rest => a.isDigit && b.isDigit && underscoresOk (b :: rest)
  | '_' :: _ => false
  | _ :: rest => underscoresOk rest
  | [] => true

/-- Remove the (already position-checked) digit-group underscores. -/
def stripUnderscores (cs : List Char) : List Char := cs.filter (fun c => c != '_')

/-- The decimal part of the Python float-literal grammar, after sign and
underscore handling: digits with an optional fraction (at least one digit
on one of the two sides of the dot) and an optional signed exponent; the
whole input must be consumed. -/
def floatCore (neg : Bool) (cs : List Char) : Option JVal :=
  let ip := cs.takeWhile Char.isDigit
  let r1 := cs.dropWhile Char.isDigit
  let frac : List Char × List Char :=
    match r1 with
    | '.' :: t => (t.takeWhile Char.isDigit, t.dropWhile Char.isDigit)
    | _ => ([], r1)
  if ip.isEmpty && frac.1.isEmpty then none
  else
    let expPart : Option Int × List Char :=
      match frac.2 with
      | e :: t =>
        if e = 'e' ∨ e = 'E' then
          match t with
          | '+' :: t2 =>
            let ds := t2.takeWhile Char.isDigit
            if ds.isEmpty then (none, frac.2)
            else (some (digitsVal ds : Int), t2.dropWhile Char.isDigit)
          | '-' :: t2 =>
            let ds := t2.takeWhile Char.isDigit
            if ds.isEmpty then (none, frac.2)
            else (some (-(digitsVal ds : Int)), t2.dropWhile Char.isDigit)
          | _ =>
            let ds := t.takeWhile Char.isDigit
            if ds.isEmpty then (none, frac.2)
            else (some (digitsVal ds : Int), t.dropWhile Char.isDigit)
        else (none, frac.2)
      | [] => (none, frac.2)
    if expPart.2.isEmpty then
      let mag : Nat := digitsVal (ip ++ frac.1)
      some (.num (if neg then -(mag : Int) else (mag : Int))
        (expPart.1.getD 0 - (frac.1.length : Int)))
    else none

/-- The string-to-float coercion of pydantic's lax mode, which follows the
Python float constructor: strip surrounding whitespace, optional sign, the
case-insensitive inf / infinity / nan literals, otherwise a decimal float
literal with PEP-515 underscores allowed between digits. -/
def pyFloatOfStr (s : String) : Option JVal :=
  let t := ((s.toList.dropWhile isPyWs).reverse.dropWhile isPyWs).reverse
  let sn := stripSign t
  let low := lowerChars sn.2
  if low = ("inf").toList ∨ low = ("infinity").toList then some (.inf sn.1)
  else if low = ("nan").toList then some .nan
  else if underscoresOk sn.2 then floatCore sn.1 (stripUnderscores sn.2) else none

/-- The boolean coercion of pydantic's lax mode: a bool itself; an int or
float whose value is exactly 0 or 1; or a string that case-insensitively
matches one of the documented false-like or true-like tokens.  Everything
else (other numbers and strings, null, NaN, Infinity, arrays, objects)
rejects. -/
def laxBool : JVal → Option Bool
  | .bool b => some b
  | .num m e =>
    if numIsVal m e 0 then some false
    else if numIsVal m e 1 then some true
    else none
  | .str s =>
    let t := String.mk (lowerChars s.toList)
    if [("false"), ("f"), ("n"), ("no"), ("off"), ("0")].contains t then some false
    else if [("true"), ("t"), ("y"), ("yes"), ("on"), ("1")].contains t then some true
    else none
  | _ => none

/-- The float coercion of pydantic's lax mode: a number itself (ints
coerce to floats; NaN and Infinity are admitted, inf-and-nan being allowed
by default), a bool (True is 1.0, False 0.0), or a numeric string per the
Python float grammar.  Null, arrays and objects reject. -/
def laxFloat : JVal → Option JVal
  | .num m e => some (.num m e)
  | .nan => some .nan
  | .inf b => some (.inf b)
  | .bool b => some (.num (if b then 1 else 0) 0)
  | .str s => pyFloatOfStr s
  | _ => none

/-- A required float field of a pydantic model: present and accepted by
the lax float coercion. -/
def reqFloat (k : String) (kvs : List (String × JVal)) : Option JVal :=
  match getKey k kvs with
  | some v => laxFloat v
  | none => none

/-- The `ValidationResult` pydantic model of the input validator: a single
required boolean field `is_bank_statement`, validated with the lax boolean
coercion; extra keys are ignored, a non-object rejects
(`ValidationResult(**parsed_json)` needs a dict). -/
def decodeValidation : JVal → Option Bool
  | .obj kvs =>
    match getKey ("is_bank_statement") kvs with
    | some v => laxBool v
    | none => none
  | _ => none

/-- The `BankStatementData` pydantic model of the extractor followed by
`model_dump()`: six required fields (strings exact, floats via the lax
coercion), returned as a dict in field declaration order; extra keys are
ignored, any missing or rejected field rejects the whole object. -/
def decodeExtraction : JVal → Option (List (String × JVal))
  | .obj kvs =>
    match reqStr ("BankName") kvs, reqStr ("AccountNumber") kvs,
        reqFloat ("OpeningBalance") kvs, reqFloat ("ClosingBalance") kvs,
        reqStr ("StartDate") kvs, reqStr ("EndDate") kvs with
    | some bn, some an, some ob, some cb, some sd, some ed =>
      some [(("BankName"), bn), (("AccountNumber"), an), (("OpeningBalance"), ob),
            (("ClosingBalance"), cb), (("StartDate"), sd), (("EndDate"), ed)]
    | _, _, _, _, _, _ => none
  | _ => none

/-- The external collaborators of one handler invocation: the object-store
read (`get_object` plus `Body.read`) and the inference call, each either
returning or raising. -/
structure Env where
  s3 : Except String Unit
  agent : Except String String

namespace InputValidator

/-- `validate_bank_statement`: run the structured-response parsing on the
inference text and return the parsed boolean; any exception — a failed
inference call, no JSON object found, invalid JSON, or a schema mismatch —
is caught and the function returns False. -/
def validate_bank_statement (agentResult : Except String String) : Bool :=
  match agentResult with
  | .error _ => false
  | .ok raw =>
    match parseStructured decodeValidation raw with
    | .ok b => b
    | .error _ => false

/-- The S3 fields the handler reads off the first record of a direct S3
event. -/
structure S3Rec where
  bucket : String
  key : String

/-- The validator handler's event: an optional `Records` list (direct S3
trigger) and optional top-level `bucket` / `key` (Step Functions input). -/
structure VEvent where
  records : Option (List S3Rec)
  bucket : Option String
  key : Option String

/-- Bucket/key resolution of the validator handler: a `Records` key takes
priority and reads the first record (an empty list raises an IndexError),
otherwise `event.get` on the top level. -/
def resolveRef (ev : VEvent) : Except String (Option String × Option String) :=
  match ev.records with
  | some [] => .error ("list index out of range")
  | some (r :: _) => .ok (some r.bucket, some r.key)
  | none => .ok (ev.bucket, ev.key)

/-- The try-block of the validator handler: resolve bucket and key, raise
when either is missing or empty, read the object, classify it, and return
the success dict. -/
def handlerTry (ev : VEvent) (env : Env) : Except String (List (String × JVal)) :=
  match resolveRef ev with
  | .error e => .error e
  | .ok (bo, ko) =>
    match bo, ko with
    | some b, some k =>
      if b = "" ∨ k = "" then .error ("Missing bucket or key in event")
      else
        match env.s3 with
        | .error e => .error e
        | .ok _ =>
          .ok [(("bucket"), .str b), (("key"), .str k),
               (("valid"), .bool (validate_bank_statement env.agent))]
    | _, _ => .error ("Missing bucket or key in event")

/-- The validator handler: the try-block result, or on any exception the
500 response dict. -/
def handler (ev : VEvent) (env : Env) : List (String × JVal) :=
  match handlerTry ev env with
  | .ok d => d
  | .error e =>
    [(("statusCode"), .num 500 0),
     (("error"), .str ("An exception occurred in the input_validator Lambda: " ++ e))]

end InputValidator

namespace Extractor

/-- `extract_bank_statement_data`: run the structured-response parsing on
the inference text and return the dumped six-field record; any exception —
a failed inference call, no JSON object found, invalid JSON, or a schema
mismatch — is caught and the function returns the empty dict. -/
def extract_bank_statement_data (agentResult : Except String String) : List (String × JVal) :=
  match agentResult with
  | .error _ => []
  | .ok raw =>
    match parseStructured decodeExtraction raw with
    | .ok r => r
    | .error _ => []

/-- The extractor handler's event: `bucket` and `key` (indexed directly,
so a missing one raises a KeyError) and an optional `retry_count`. -/
structure EEvent where
  bucket : Option String
  key : Option String
  retry_count : Option Int

/-- A possibly absent string rendered into a result dict (`event.get`
yields None for a missing key). -/
def optStr : Option String → JVal
  | none => .null
  | some s => .str s

/-- The failure dict of the extractor handler's except-block:
`event.get` for bucket and key, valid False, empty data, the unconditional
retry-count increment, and the exception message. -/
def handlerFail (ev : EEvent) (e : String) : List (String × JVal) :=
  [(("bucket"), optStr ev.bucket), (("key"), optStr ev.key), (("valid"), .bool false),
   (("extracted_data"), .obj []), (("retry_count"), .num (ev.retry_count.getD 0 + 1) 0),
   (("error"), .str e)]

/-- The extractor handler: index bucket and key (a missing one raises),
read the object (may raise), extract, and return the success dict whose
`valid` is the truthiness of the extracted dict; any exception lands in
the except-block's failure dict.  The model's KeyError messages stand for
Python's rendering of the missing key's name. -/
def handler (ev : EEvent) (env : Env) : List (String × JVal) :=
  match ev.bucket with
  | none => handlerFail ev ("KeyError: bucket")
  | some b =>
    match ev.key with
    | none => handlerFail ev ("KeyError: key")
    | some k =>
      match env.s3 with
      | .error e => handlerFail ev e
      | .ok _ =>
        [(("bucket"), .str b), (("key"), .str k),
         (("valid"), .bool (!(extract_bank_statement_data env.agent).isEmpty)),
         (("extracted_data"), .obj (extract_bank_statement_data env.agent)),
         (("retry_count"), .num (ev.retry_count.getD 0 + 1) 0)]

end Extractor

/-! Helper lemmas about the slicing routine. -/

theorem findFirst_eq_none {p : Char → Bool} :
    ∀ {xs : List Char}, (∀ x ∈ xs, p x = false) → findFirst p xs = none := by
  intro xs
  induction xs with
  | nil => intro _; rfl
  | cons c cs ih =>
    intro h
    have hc : p c = false := h c (List.mem_cons_self c cs)
    simp [findFirst, hc, ih (fun x hx => h x (List.mem_cons_of_mem c hx))]

theorem findLast_eq_none {p : Char → Bool} :
    ∀ {xs : List Char}, (∀ x ∈ xs, p x = false) → findLast p xs = none := by
  intro xs
  induction xs with
  | nil => intro _; rfl
  | cons c cs ih =>
    intro h
    have hc : p c = false := h c (List.mem_cons_self c cs)
    simp [findLast, hc, ih (fun x hx => h x (List.mem_cons_of_mem c hx))]

theorem findFirst_concat (p : Char → Bool) (pre : List Char) (c : Char) (rest : List Char)
    (hpre : ∀ x ∈ pre, p x = false) (hc : p c = true) :
    findFirst p (pre ++ c :: rest) = some pre.length := by
  induction pre with
  | nil => simp [findFirst, hc]
  | cons a as ih =>
    have ha : p a = false := hpre a (List.mem_cons_self a as)
    simp [findFirst, ha, ih (fun x hx => hpre x (List.mem_cons_of_mem a hx))]

theorem findLast_concat (p : Char → Bool) (front : List Char) (c : Char) (post : List Char)
    (hc : p c = true) (hpost : ∀ x ∈ post, p x = false) :
    findLast p (front ++ c :: post) = some front.length := by
  induction front with
  | nil => simp [findLast, findLast_eq_none hpost, hc]
  | cons a as ih => simp [findLast, ih]

/-- When neither brace occurs on one side, the slicing routine raises: no
left brace anywhere, or no right brace anywhere, yields the explicit
"No JSON object found" failure. -/
theorem sliceJson_eq_none {cs : List Char}
    (h : (∀ x ∈ cs, (x == lbrace) = false) ∨ (∀ x ∈ cs, (x == rbrace) = false)) :
    sliceJson cs = none := by
  cases h with
  | inl h =>
    unfold sliceJson
    rw [findFirst_eq_none h]
  | inr h =>
    unfold sliceJson
    rw [findLast_eq_none h]
    cases findFirst (fun c => c == lbrace) cs <;> rfl

/-- The slicing routine isolates an embedded brace-delimited body: with no
left brace before it and no right brace after it, the slice is exactly the
body. -/
theorem sliceJson_embed (pre mid post : List Char)
    (hpre : ∀ x ∈ pre, (x == lbrace) = false)
    (hpost : ∀ x ∈ post, (x == rbrace) = false) :
    sliceJson (pre ++ (lbrace :: mid ++ [rbrace]) ++ post) = some (lbrace :: mid ++ [rbrace]) := by
  have h1 : findFirst (fun c => c == lbrace) (pre ++ (lbrace :: mid ++ [rbrace]) ++ post)
      = some pre.length := by
    have he : pre ++ (lbrace :: mid ++ [rbrace]) ++ post
        = pre ++ lbrace :: (mid ++ [rbrace] ++ post) := by simp
    rw [he]
    exact findFirst_concat _ pre lbrace _ hpre (by simp)
  have h2 : findLast (fun c => c == rbrace) (pre ++ (lbrace :: mid ++ [rbrace]) ++ post)
      = some (pre.length + mid.length + 1) := by
    have he : pre ++ (lbrace :: mid ++ [rbrace]) ++ post
        = (pre ++ lbrace :: mid) ++ rbrace :: post := by simp
    rw [he]
    have hl := findLast_concat (fun c => c == rbrace) (pre ++ lbrace :: mid) rbrace post
      (by simp) hpost
    simpa [Nat.add_comm, Nat.add_assoc, Nat.add_left_comm] using hl
  unfold sliceJson
  rw [h1, h2]
  have h3 : pre.length + mid.length + 1 + 1 - pre.length = mid.length + 2 := by omega
  dsimp only
  rw [h3, List.append_assoc, List.drop_left' rfl,
    List.take_left' (by simp : (lbrace :: mid ++ [rbrace]).length = mid.length + 2)]

/-- A successful schema validation of the extractor yields exactly the six
declared fields, in declaration order. -/
theorem decodeExtraction_keys (j : JVal) (r : List (String × JVal))
    (h : decodeExtraction j = some r) :
    r.map Prod.fst = [("BankName"), ("AccountNumber"), ("OpeningBalance"),
      ("ClosingBalance"), ("StartDate"), ("EndDate")] := by
  cases j with
  | obj kvs =>
    simp only [decodeExtraction] at h
    split at h
    · cases h
      rfl
    · cases h
  | null => simp [decodeExtraction] at h
  | bool b => simp [decodeExtraction] at h
  | num m e => simp [decodeExtraction] at h
  | nan => simp [decodeExtraction] at h
  | inf n => simp [decodeExtraction] at h
  | str s => simp [decodeExtraction] at h
  | arr es => simp [decodeExtraction] at h

/-- Either the structured parse of the extractor succeeded on some parsed
JSON value, or the stage failed; on success the decoded record is the
witness. -/
theorem parseStructured_ok {α : Type} (decode : JVal → Option α) (raw : String) (a : α)
    (h : parseStructured decode raw = .ok a) : ∃ j, decode j = some a := by
  unfold parseStructured at h
  cases h1 : sliceJson raw.toList with
  | none =>
    simp only [h1] at h
    exact Except.noConfusion h
  | some s =>
    simp only [h1] at h
    cases h2 : jsonParseL s with
    | none =>
      simp only [h2] at h
      exact Except.noConfusion h
    | some j =>
      simp only [h2] at h
      cases h3 : decode j with
      | none =>
        simp only [h3] at h
        exact Except.noConfusion h
      | some a2 =>
        simp only [h3] at h
        cases h
        exact ⟨j, h3⟩

/-- Every extractor handler output carries an `extracted_data` object and a
`valid` flag that is the truthiness of that object. -/
theorem extractor_output_shape (ev : Extractor.EEvent) (env : Env) :
    ∃ d, getKey ("extracted_data") (Extractor.handler ev env) = some (.obj d) ∧
      getKey ("valid") (Extractor.handler ev env) = some (.bool (!d.isEmpty)) := by
  rcases ev with ⟨bo, ko, rc⟩
  rcases env with ⟨s3, ag⟩
  cases bo with
  | none => exact ⟨[], rfl, rfl⟩
  | some b =>
    cases ko with
    | none => exact ⟨[], rfl, rfl⟩
    | some k =>
      cases s3 with
      | error e => exact ⟨[], rfl, rfl⟩
      | ok u => exact ⟨Extractor.extract_bank_statement_data ag, rfl, rfl⟩

/-- The validator handler either succeeds with the three-field result dict
for the resolved non-empty bucket and key after a successful object-store
read, or returns the 500 response dict. -/
theorem vhandler_cases (ev : InputValidator.VEvent) (env : Env) :
    (∃ b k, InputValidator.resolveRef ev = .ok (some b, some k) ∧ ¬(b = "" ∨ k = "") ∧
        env.s3 = .ok () ∧
        InputValidator.handler ev env
          = [(("bucket"), .str b), (("key"), .str k),
             (("valid"), .bool (InputValidator.validate_bank_statement env.agent))]) ∨
    (∃ m, InputValidator.handler ev env
        = [(("statusCode"), .num 500 0),
           (("error"), .str ("An exception occurred in the input_validator Lambda: " ++ m))]) := by
  rcases ev with ⟨recs, bo, ko⟩
  rcases env with ⟨s3, ag⟩
  have core : ∀ b k : String,
      InputValidator.resolveRef ⟨recs, bo, ko⟩ = .ok (some b, some k) →
      (∃ b2 k2, InputValidator.resolveRef (⟨recs, bo, ko⟩ : InputValidator.VEvent)
            = .ok (some b2, some k2) ∧ ¬(b2 = "" ∨ k2 = "") ∧ s3 = .ok () ∧
          InputValidator.handler ⟨recs, bo, ko⟩ ⟨s3, ag⟩
            = [(("bucket"), .str b2), (("key"), .str k2),
               (("valid"), .bool (InputValidator.validate_bank_statement ag))]) ∨
      (∃ m, InputValidator.handler ⟨recs, bo, ko⟩ ⟨s3, ag⟩
          = [(("statusCode"), .num 500 0),
             (("error"), .str ("An exception occurred in the input_validator Lambda: " ++ m))]) := by
    intro b k hres
    by_cases hbk : b = "" ∨ k = ""
    · right
      refine ⟨("Missing bucket or key in event"), ?_⟩
      simp [InputValidator.handler, InputValidator.handlerTry, hres, hbk]
    · cases s3 with
      | error e =>
        right
        refine ⟨e, ?_⟩
        simp [InputValidator.handler, InputValidator.handlerTry, hres, hbk]
      | ok u =>
        left
        cases u
        exact ⟨b, k, hres, hbk, rfl, by
          simp [InputValidator.handler, InputValidator.handlerTry, hres, hbk]⟩
  cases recs with
  | none =>
    cases bo with
    | none => exact Or.inr ⟨("Missing bucket or key in event"), rfl⟩
    | some b =>
      cases ko with
      | none => exact Or.inr ⟨("Missing bucket or key in event"), rfl⟩
      | some k => exact core b k rfl
  | some rs =>
    cases rs with
    | nil => exact Or.inr ⟨("list index out of range"), rfl⟩
    | cons r rest => exact core r.bucket r.key rfl

/-- Claim C2 (confirmed): whether the extractor handler succeeds or fails,
the `retry_count` of its output is the input's `retry_count` (0 when
missing) plus one; the increment is unconditional on every invocation. -/
theorem C2_retry_count_increment (ev : Extractor.EEvent) (env : Env) :
    getKey ("retry_count") (Extractor.handler ev env)
      = some (.num (ev.retry_count.getD 0 + 1) 0) := by
  rcases ev with ⟨bo, ko, rc⟩
  rcases env with ⟨s3, ag⟩
  cases bo with
  | none => rfl
  | some b =>
    cases ko with
    | none => rfl
    | some k => cases s3 <;> rfl

/-- Claim C3 (confirmed): in every extractor output, a false `valid` flag
comes with an empty `extracted_data` dict and a true `valid` flag only with
a non-empty one; the validator result carries no data field at all, so the
invariant holds vacuously there. -/
theorem C3_valid_iff_nonempty_data :
    (∀ (ev : Extractor.EEvent) (env : Env) (d : List (String × JVal)) (b : Bool),
        getKey ("extracted_data") (Extractor.handler ev env) = some (.obj d) →
        getKey ("valid") (Extractor.handler ev env) = some (.bool b) →
        (b = false → d = []) ∧ (b = true → d ≠ [])) ∧
    (∀ (ev : InputValidator.VEvent) (env : Env),
        getKey ("extracted_data") (InputValidator.handler ev env) = none) := by
  constructor
  · intro ev env d b hd hv
    obtain ⟨d0, h1, h2⟩ := extractor_output_shape ev env
    rw [hd] at h1
    rw [hv] at h2
    have hdd : d = d0 := by
      have := Option.some.inj h1
      cases this
      rfl
    subst hdd
    have hbb : b = !d.isEmpty := by
      have := Option.some.inj h2
      cases this
      rfl
    subst hbb
    cases d with
    | nil => simp
    | cons x xs => simp
  · intro ev env
    rcases vhandler_cases ev env with ⟨b, k, _, _, _, hout⟩ | ⟨m, hout⟩ <;> rw [hout] <;> rfl

/-- Claim C3 witness: a concrete failing invocation, where the data dict is
empty and the valid flag false. -/
theorem C3_witness :
    (false = false → ([] : List (String × JVal)) = []) ∧
    (false = true → ([] : List (String × JVal)) ≠ []) :=
  C3_valid_iff_nonempty_data.1 ⟨none, none, none⟩ ⟨.ok (), .ok ("")⟩ [] false rfl rfl

/-- Claim C4 (confirmed): a response text with no left brace or no right
brace makes the structured-response parsing of either stage fail with the
explicit "No JSON object found" parse error, the validator classify as
false and the extractor return the empty dict. -/
theorem C4_no_delimiters (raw : String)
    (h : (∀ x ∈ raw.toList, (x == lbrace) = false) ∨
         (∀ x ∈ raw.toList, (x == rbrace) = false)) :
    (∀ (α : Type) (decode : JVal → Option α),
        parseStructured decode raw
          = .error (.parseError ("No JSON object found in the response."))) ∧
    InputValidator.validate_bank_statement (.ok raw) = false ∧
    Extractor.extract_bank_statement_data (.ok raw) = [] := by
  have hs : sliceJson raw.data = none := sliceJson_eq_none h
  refine ⟨fun α decode => ?_, ?_, ?_⟩
  · simp [parseStructured, hs]
  · simp [InputValidator.validate_bank_statement, parseStructured, hs]
  · simp [Extractor.extract_bank_statement_data, parseStructured, hs]

/-- Claim C4 witness: a concrete brace-free response fails closed in both
stages. -/
theorem C4_witness :
    InputValidator.validate_bank_statement (.ok ("I cannot help with that.")) = false ∧
    Extractor.extract_bank_statement_data (.ok ("I cannot help with that.")) = [] :=
  ⟨(C4_no_delimiters ("I cannot help with that.") (Or.inl (by decide))).2.1,
   (C4_no_delimiters ("I cannot help with that.") (Or.inl (by decide))).2.2⟩

/-- Unfolding of the validator stage on a successful inference call. -/
theorem validate_ok_unfold (raw : String) :
    InputValidator.validate_bank_statement (.ok raw)
      = (match parseStructured decodeValidation raw with
         | .ok b => b
         | .error _ => false) := rfl

/-- Unfolding of the extractor stage on a successful inference call. -/
theorem extract_ok_unfold (raw : String) :
    Extractor.extract_bank_statement_data (.ok raw)
      = (match parseStructured decodeExtraction raw with
         | .ok r => r
         | .error _ => []) := rfl

/-- Unfolding of the structured-response parsing once the slice is
known. -/
theorem parseStructured_of_slice {α : Type} (decode : JVal → Option α) (raw : String)
    (s : List Char) (hs : sliceJson raw.toList = some s) :
    parseStructured decode raw
      = (match jsonParseL s with
         | none => .error (.schemaError ("the sliced substring is not valid JSON"))
         | some j =>
           match decode j with
           | some a => .ok a
           | none => .error (.schemaError ("the parsed JSON does not match the schema"))) := by
  unfold parseStructured
  rw [hs]

/-- Evaluation of the structured-response parsing when slice, JSON parse
and schema validation all succeed. -/
theorem parseStructured_ok_of {α : Type} (decode : JVal → Option α) (raw : String)
    (s : List Char) (j : JVal) (a : α)
    (hs : sliceJson raw.toList = some s) (hj : jsonParseL s = some j)
    (hd : decode j = some a) :
    parseStructured decode raw = .ok a := by
  have h1 := parseStructured_of_slice decode raw s hs
  rw [hj] at h1
  have h2 : parseStructured decode raw
      = (match decode j with
         | some a2 => Except.ok a2
         | none => Except.error (.schemaError ("the parsed JSON does not match the schema"))) :=
    h1
  rw [hd] at h2
  exact h2

/-- Evaluation of the structured-response parsing when the slice parses but
the schema validation rejects. -/
theorem parseStructured_schema_of {α : Type} (decode : JVal → Option α) (raw : String)
    (s : List Char) (j : JVal)
    (hs : sliceJson raw.toList = some s) (hj : jsonParseL s = some j)
    (hd : decode j = none) :
    parseStructured decode raw
      = .error (.schemaError ("the parsed JSON does not match the schema")) := by
  have h1 := parseStructured_of_slice decode raw s hs
  rw [hj] at h1
  have h2 : parseStructured decode raw
      = (match decode j with
         | some a2 => Except.ok a2
         | none => Except.error (.schemaError ("the parsed JSON does not match the schema"))) :=
    h1
  rw [hd] at h2
  exact h2

/-- Evaluation of the structured-response parsing when the slice is not
valid JSON. -/
theorem parseStructured_badjson_of {α : Type} (decode : JVal → Option α) (raw : String)
    (s : List Char)
    (hs : sliceJson raw.toList = some s) (hj : jsonParseL s = none) :
    parseStructured decode raw
      = .error (.schemaError ("the sliced substring is not valid JSON")) := by
  have h1 := parseStructured_of_slice decode raw s hs
  rw [hj] at h1
  exact h1

/-- The validator stage returns the parsed boolean when the structured
parse succeeds. -/
theorem validate_of_parse (raw : String) (bv : Bool)
    (h : parseStructured decodeValidation raw = .ok bv) :
    InputValidator.validate_bank_statement (.ok raw) = bv := by
  rw [validate_ok_unfold, h]

/-- The validator stage fails closed when the structured parse fails. -/
theorem validate_of_err (raw : String) (e : PErr)
    (h : parseStructured decodeValidation raw = .error e) :
    InputValidator.validate_bank_statement (.ok raw) = false := by
  rw [validate_ok_unfold, h]

/-- The extractor stage returns the decoded record when the structured
parse succeeds. -/
theorem extract_of_parse (raw : String) (r : List (String × JVal))
    (h : parseStructured decodeExtraction raw = .ok r) :
    Extractor.extract_bank_statement_data (.ok raw) = r := by
  rw [extract_ok_unfold, h]

/-- The extractor stage fails closed when the structured parse fails. -/
theorem extract_of_err (raw : String) (e : PErr)
    (h : parseStructured decodeExtraction raw = .error e) :
    Extractor.extract_bank_statement_data (.ok raw) = [] := by
  rw [extract_ok_unfold, h]

/-- Claim C5 (confirmed): when the response text is any noise without a
left brace, then a brace-delimited body, then any noise without a right
brace, each stage behaves exactly as on the body alone: if the body parses
and validates, the stage returns exactly the decoded result. -/
theorem C5_embedded_object (pre mid post : List Char)
    (hpre : ∀ x ∈ pre, (x == lbrace) = false)
    (hpost : ∀ x ∈ post, (x == rbrace) = false) :
    (∀ bv : Bool,
        (jsonParseL (lbrace :: mid ++ [rbrace])).bind decodeValidation = some bv →
        InputValidator.validate_bank_statement
          (.ok (String.mk (pre ++ (lbrace :: mid ++ [rbrace]) ++ post))) = bv) ∧
    (∀ r : List (String × JVal),
        (jsonParseL (lbrace :: mid ++ [rbrace])).bind decodeExtraction = some r →
        Extractor.extract_bank_statement_data
          (.ok (String.mk (pre ++ (lbrace :: mid ++ [rbrace]) ++ post))) = r) := by
  have hs : sliceJson (String.mk (pre ++ (lbrace :: mid ++ [rbrace]) ++ post)).toList
      = some (lbrace :: mid ++ [rbrace]) := sliceJson_embed pre mid post hpre hpost
  constructor
  · intro bv hb
    cases hj : jsonParseL (lbrace :: mid ++ [rbrace]) with
    | none =>
      rw [hj] at hb
      exact Option.noConfusion hb
    | some j =>
      rw [hj] at hb
      exact validate_of_parse _ bv (parseStructured_ok_of decodeValidation _ _ j bv hs hj hb)
  · intro r hr
    cases hj : jsonParseL (lbrace :: mid ++ [rbrace]) with
    | none =>
      rw [hj] at hr
      exact Option.noConfusion hr
    | some j =>
      rw [hj] at hr
      exact extract_of_parse _ r (parseStructured_ok_of decodeExtraction _ _ j r hs hj hr)

/-- Claim C5 witness: the noisy-response scenario — commentary around an
embedded boolean object still classifies as false. -/
theorem C5_witness :
    InputValidator.validate_bank_statement
      (.ok ("Sure! \x7b\"is_bank_statement\": false\x7d Hope that helps.")) = false :=
  (C5_embedded_object (("Sure! ").toList) (("\"is_bank_statement\": false").toList)
    ((" Hope that helps.").toList) (by decide) (by decide)).1 false rfl

/-- Claim C6 (confirmed): when the slice exists but is not valid JSON, or
parses to something the stage's schema rejects — a missing required field,
or a value of the wrong type that the lax coercions also do not accept —
the structured parse fails with a schema error and the stage fails with no
partial record; moreover the extractor's output dict is always either
empty or carries exactly the six schema fields. -/
theorem C6_schema_error :
    (∀ (raw : String) (s : List Char), sliceJson raw.toList = some s →
        (jsonParseL s).bind decodeValidation = none →
        (∃ m, parseStructured decodeValidation raw = .error (.schemaError m)) ∧
        InputValidator.validate_bank_statement (.ok raw) = false) ∧
    (∀ (raw : String) (s : List Char), sliceJson raw.toList = some s →
        (jsonParseL s).bind decodeExtraction = none →
        (∃ m, parseStructured decodeExtraction raw = .error (.schemaError m)) ∧
        Extractor.extract_bank_statement_data (.ok raw) = []) ∧
    (∀ e : Except String String,
        Extractor.extract_bank_statement_data e = [] ∨
        (Extractor.extract_bank_statement_data e).map Prod.fst
          = [("BankName"), ("AccountNumber"), ("OpeningBalance"),
             ("ClosingBalance"), ("StartDate"), ("EndDate")]) := by
  refine ⟨?_, ?_, ?_⟩
  · intro raw s hs hnone
    have hps : ∃ m, parseStructured decodeValidation raw = .error (.schemaError m) := by
      cases hj : jsonParseL s with
      | none => exact ⟨_, parseStructured_badjson_of decodeValidation raw s hs hj⟩
      | some j =>
        rw [hj] at hnone
        have hd : decodeValidation j = none := hnone
        exact ⟨_, parseStructured_schema_of decodeValidation raw s j hs hj hd⟩
    obtain ⟨m, hm⟩ := hps
    exact ⟨⟨m, hm⟩, validate_of_err raw (.schemaError m) hm⟩
  · intro raw s hs hnone
    have hps : ∃ m, parseStructured decodeExtraction raw = .error (.schemaError m) := by
      cases hj : jsonParseL s with
      | none => exact ⟨_, parseStructured_badjson_of decodeExtraction raw s hs hj⟩
      | some j =>
        rw [hj] at hnone
        have hd : decodeExtraction j = none := hnone
        exact ⟨_, parseStructured_schema_of decodeExtraction raw s j hs hj hd⟩
    obtain ⟨m, hm⟩ := hps
    exact ⟨⟨m, hm⟩, extract_of_err raw (.schemaError m) hm⟩
  · intro e
    cases e with
    | error m => exact Or.inl rfl
    | ok raw =>
      cases hp : parseStructured decodeExtraction raw with
      | error pe => exact Or.inl (extract_of_err raw pe hp)
      | ok r =>
        right
        obtain ⟨j, hj⟩ := parseStructured_ok decodeExtraction raw r hp
        rw [extract_of_parse raw r hp]
        exact decodeExtraction_keys j r hj

/-- Claim C6 witness: a response that is a JSON object missing five of the
six required fields makes the extractor fail with the empty dict. -/
theorem C6_witness :
    Extractor.extract_bank_statement_data (.ok ("\x7b\"BankName\": \"Chase\"\x7d")) = [] :=
  (C6_schema_error.2.1 ("\x7b\"BankName\": \"Chase\"\x7d")
    (("\x7b\"BankName\": \"Chase\"\x7d").toList) rfl rfl).2

/-- Claim C9 (confirmed): whenever a stage's output carries bucket or key
fields, they are exactly the input document reference's bucket and key —
for the validator the reference resolved from the event (first record of a
direct S3 event, else the top level), for the extractor the event's bucket
and key, on the success and the failure path alike. -/
theorem C9_ref_passthrough :
    (∀ (ev : InputValidator.VEvent) (env : Env) (b k : String),
        InputValidator.resolveRef ev = .ok (some b, some k) →
        (∀ v, getKey ("bucket") (InputValidator.handler ev env) = some v → v = .str b) ∧
        (∀ v, getKey ("key") (InputValidator.handler ev env) = some v → v = .str k)) ∧
    (∀ (ev : Extractor.EEvent) (env : Env) (b k : String),
        ev.bucket = some b → ev.key = some k →
        getKey ("bucket") (Extractor.handler ev env) = some (.str b) ∧
        getKey ("key") (Extractor.handler ev env) = some (.str k)) := by
  constructor
  · intro ev env b k hres
    rcases vhandler_cases ev env with ⟨b2, k2, hres2, hne, hs3, hout⟩ | ⟨m, hout⟩
    · rw [hres] at hres2
      injection hres2 with h2
      have hb : b = b2 := by
        have := congrArg Prod.fst h2
        exact Option.some.inj this
      have hk : k = k2 := by
        have := congrArg Prod.snd h2
        exact Option.some.inj this
      subst hb
      subst hk
      constructor
      · intro v hv
        rw [hout] at hv
        have hv2 : some (JVal.str b) = some v := hv
        exact (Option.some.inj hv2).symm
      · intro v hv
        rw [hout] at hv
        have hv2 : some (JVal.str k) = some v := hv
        exact (Option.some.inj hv2).symm
    · constructor
      · intro v hv
        rw [hout] at hv
        exact Option.noConfusion hv
      · intro v hv
        rw [hout] at hv
        exact Option.noConfusion hv
  · intro ev env b k hb hk
    rcases ev with ⟨bo, ko, rc⟩
    rcases env with ⟨s3, ag⟩
    cases hb
    cases hk
    cases s3 with
    | error e => exact ⟨rfl, rfl⟩
    | ok u => exact ⟨rfl, rfl⟩

/-- Claim C9 witness: a direct-S3-event validator invocation and an
extractor invocation, both carrying their input reference through. -/
theorem C9_witness :
    (JVal.str ("rb") = JVal.str ("rb")) ∧
    getKey ("bucket") (Extractor.handler ⟨some ("b"), some ("k"), none⟩ ⟨.ok (), .ok ("")⟩)
      = some (.str ("b")) :=
  ⟨((C9_ref_passthrough.1 ⟨some [⟨("rb"), ("rk")⟩], none, none⟩ ⟨.ok (), .ok ("")⟩
      ("rb") ("rk") rfl).1 (.str ("rb")) rfl),
   (C9_ref_passthrough.2 ⟨some ("b"), some ("k"), none⟩ ⟨.ok (), .ok ("")⟩
      ("b") ("k") rfl rfl).1⟩

/-- Claim C10 (confirmed): the validator handler dispatches on the event
shape — a Records key wins over any top-level bucket and key and the first
record's fields are used; without Records, a missing or empty top-level
bucket or key produces the 500 response dict, which carries neither a
valid flag nor bucket or key fields, and no exception escapes (the
embedded handler is a total function). -/
theorem C10_event_dispatch :
    (∀ (ev : InputValidator.VEvent) (env : Env) (r : InputValidator.S3Rec)
        (rs : List InputValidator.S3Rec),
        ev.records = some (r :: rs) → ¬(r.bucket = "" ∨ r.key = "") → env.s3 = .ok () →
        InputValidator.handler ev env
          = [(("bucket"), .str r.bucket), (("key"), .str r.key),
             (("valid"), .bool (InputValidator.validate_bank_statement env.agent))]) ∧
    (∀ (ev : InputValidator.VEvent) (env : Env),
        ev.records = none →
        (ev.bucket = none ∨ ev.bucket = some ("") ∨ ev.key = none ∨ ev.key = some ("")) →
        InputValidator.handler ev env
          = [(("statusCode"), .num 500 0),
             (("error"), .str ("An exception occurred in the input_validator Lambda: "
                ++ "Missing bucket or key in event"))] ∧
        getKey ("valid") (InputValidator.handler ev env) = none ∧
        getKey ("bucket") (InputValidator.handler ev env) = none ∧
        getKey ("key") (InputValidator.handler ev env) = none) := by
  constructor
  · intro ev env r rs hr hne hs3
    rcases ev with ⟨recs, bo, ko⟩
    rcases env with ⟨s3, ag⟩
    cases hr
    cases hs3
    simp [InputValidator.handler, InputValidator.handlerTry, InputValidator.resolveRef, hne]
  · intro ev env hr hmiss
    rcases ev with ⟨recs, bo, ko⟩
    rcases env with ⟨s3, ag⟩
    cases hr
    rcases hmiss with h | h | h | h
    · cases h
      exact ⟨rfl, rfl, rfl, rfl⟩
    · cases h
      cases ko with
      | none => exact ⟨rfl, rfl, rfl, rfl⟩
      | some k =>
        refine ⟨?_, ?_, ?_, ?_⟩ <;>
          simp [InputValidator.handler, InputValidator.handlerTry,
            InputValidator.resolveRef, getKey]
    · cases h
      cases bo with
      | none => exact ⟨rfl, rfl, rfl, rfl⟩
      | some b =>
        refine ⟨?_, ?_, ?_, ?_⟩ <;>
          simp [InputValidator.handler, InputValidator.handlerTry,
            InputValidator.resolveRef, getKey]
    · cases h
      cases bo with
      | none => exact ⟨rfl, rfl, rfl, rfl⟩
      | some b =>
        refine ⟨?_, ?_, ?_, ?_⟩ <;>
          simp [InputValidator.handler, InputValidator.handlerTry,
            InputValidator.resolveRef, getKey]

/-- Claim C10 witness: a concrete event with a Records entry overriding the
top level, and a concrete event with an empty top-level bucket. -/
theorem C10_witness :
    InputValidator.handler ⟨some [⟨("rb"), ("rk")⟩], some ("tb"), some ("tk")⟩
        ⟨.ok (), .ok ("junk")⟩
      = [(("bucket"), .str ("rb")), (("key"), .str ("rk")), (("valid"), .bool false)] ∧
    getKey ("valid")
      (InputValidator.handler ⟨none, some (""), some ("tk")⟩ ⟨.ok (), .ok ("junk")⟩) = none :=
  ⟨(C10_event_dispatch.1 ⟨some [⟨("rb"), ("rk")⟩], some ("tb"), some ("tk")⟩
      ⟨.ok (), .ok ("junk")⟩ ⟨("rb"), ("rk")⟩ [] rfl (by simp) rfl),
   (C10_event_dispatch.2 ⟨none, some (""), some ("tk")⟩ ⟨.ok (), .ok ("junk")⟩ rfl
      (Or.inr (Or.inl rfl))).2.1⟩

/-- Claim C1 counterexample: an object-store fault (a TransportError) in
the Validator stage is caught, but the handler returns the 500 response
dict, which carries no `valid` flag at all — not a StageResult with
`valid=false` as the claim states. -/
theorem C1_counterexample :
    getKey ("valid")
      (InputValidator.handler ⟨none, some ("b"), some ("k")⟩
        ⟨.error ("get_object failed"), .ok ("")⟩) = none ∧
    getKey ("statusCode")
      (InputValidator.handler ⟨none, some ("b"), some ("k")⟩
        ⟨.error ("get_object failed"), .ok ("")⟩) = some (.num 500 0) := ⟨rfl, rfl⟩

/-- Claim C1 as amended: no fault ever escapes a stage (the embedded
handlers are total functions into result dicts); the Extractor returns a
`valid=false` StageResult for every fault kind; the Validator returns a
`valid=false` StageResult for inference, parse, schema and classification
faults, but an object-store fault in the Validator is caught and converted
into the 500 response dict, which has no `valid` flag. -/
theorem C1_fail_closed :
    (∀ (ev : Extractor.EEvent) (env : Env),
        env.s3 = .ok () → Extractor.extract_bank_statement_data env.agent = [] →
        getKey ("valid") (Extractor.handler ev env) = some (.bool false)) ∧
    (∀ (ev : Extractor.EEvent) (env : Env) (e : String),
        env.s3 = .error e →
        getKey ("valid") (Extractor.handler ev env) = some (.bool false)) ∧
    (∀ (ev : InputValidator.VEvent) (env : Env) (b k : String),
        InputValidator.resolveRef ev = .ok (some b, some k) → ¬(b = "" ∨ k = "") →
        env.s3 = .ok () → InputValidator.validate_bank_statement env.agent = false →
        InputValidator.handler ev env
          = [(("bucket"), .str b), (("key"), .str k), (("valid"), .bool false)]) ∧
    (∀ (ev : InputValidator.VEvent) (env : Env) (e : String) (b k : String),
        InputValidator.resolveRef ev = .ok (some b, some k) → ¬(b = "" ∨ k = "") →
        env.s3 = .error e →
        getKey ("valid") (InputValidator.handler ev env) = none ∧
        getKey ("statusCode") (InputValidator.handler ev env) = some (.num 500 0)) := by
  refine ⟨?_, ?_, ?_, ?_⟩
  · intro ev env hs3 hex
    rcases ev with ⟨bo, ko, rc⟩
    rcases env with ⟨s3, ag⟩
    cases hs3
    cases bo with
    | none => rfl
    | some b =>
      cases ko with
      | none => rfl
      | some k => simp [Extractor.handler, getKey, hex]
  · intro ev env e hs3
    rcases ev with ⟨bo, ko, rc⟩
    rcases env with ⟨s3, ag⟩
    cases hs3
    cases bo with
    | none => rfl
    | some b =>
      cases ko with
      | none => rfl
      | some k => rfl
  · intro ev env b k hres hbk hs3 hval
    rcases env with ⟨s3, ag⟩
    cases hs3
    simp [InputValidator.handler, InputValidator.handlerTry, hres, hbk, hval]
  · intro ev env e b k hres hbk hs3
    rcases env with ⟨s3, ag⟩
    cases hs3
    constructor <;>
      simp [InputValidator.handler, InputValidator.handlerTry, hres, hbk, getKey]

/-- Claim C1 witness: a concrete parse fault in the extractor fails closed,
and a concrete classification fault in the validator fails closed. -/
theorem C1_fail_closed_witness :
    getKey ("valid")
      (Extractor.handler ⟨some ("b"), some ("k"), none⟩ ⟨.ok (), .ok ("junk")⟩)
      = some (.bool false) ∧
    InputValidator.handler ⟨none, some ("b"), some ("k")⟩ ⟨.ok (), .ok ("junk")⟩
      = [(("bucket"), .str ("b")), (("key"), .str ("k")), (("valid"), .bool false)] :=
  ⟨C1_fail_closed.1 ⟨some ("b"), some ("k"), none⟩ ⟨.ok (), .ok ("junk")⟩ rfl rfl,
   C1_fail_closed.2.2.1 ⟨none, some ("b"), some ("k")⟩ ⟨.ok (), .ok ("junk")⟩
     ("b") ("k") rfl (by decide) rfl rfl⟩

/-- Claim C7 counterexample: a parse fault (no JSON delimiters in the
response) is a failing extractor invocation, yet the returned dict has no
`error` field — the fault is absorbed inside the extraction routine, so the
handler's success path runs and omits `error`, contrary to the claim that
every failure populates it. -/
theorem C7_counterexample :
    getKey ("valid")
      (Extractor.handler ⟨some ("b"), some ("k"), some 0⟩
        ⟨.ok (), .ok ("no delimiters")⟩) = some (.bool false) ∧
    getKey ("error")
      (Extractor.handler ⟨some ("b"), some ("k"), some 0⟩
        ⟨.ok (), .ok ("no delimiters")⟩) = none := ⟨rfl, rfl⟩

/-- Claim C7 as amended: an upstream object-store fault reaches the
handler boundary and returns
`{bucket, key, valid=false, extracted_data={}, retry_count+1, error=<message>}`;
an inference, parse or schema fault is caught inside the extraction routine
and yields the same shape but with no `error` field at all. -/
theorem C7_failure_shape :
    (∀ (ev : Extractor.EEvent) (env : Env) (b k e : String),
        ev.bucket = some b → ev.key = some k → env.s3 = .error e →
        Extractor.handler ev env
          = [(("bucket"), .str b), (("key"), .str k), (("valid"), .bool false),
             (("extracted_data"), .obj []),
             (("retry_count"), .num (ev.retry_count.getD 0 + 1) 0),
             (("error"), .str e)]) ∧
    (∀ (ev : Extractor.EEvent) (env : Env) (b k : String),
        ev.bucket = some b → ev.key = some k → env.s3 = .ok () →
        Extractor.extract_bank_statement_data env.agent = [] →
        Extractor.handler ev env
          = [(("bucket"), .str b), (("key"), .str k), (("valid"), .bool false),
             (("extracted_data"), .obj []),
             (("retry_count"), .num (ev.retry_count.getD 0 + 1) 0)] ∧
        getKey ("error") (Extractor.handler ev env) = none) := by
  constructor
  · intro ev env b k e hb hk hs3
    rcases ev with ⟨bo, ko, rc⟩
    rcases env with ⟨s3, ag⟩
    cases hb
    cases hk
    cases hs3
    rfl
  · intro ev env b k hb hk hs3 hex
    rcases ev with ⟨bo, ko, rc⟩
    rcases env with ⟨s3, ag⟩
    cases hb
    cases hk
    cases hs3
    exact ⟨by simp [Extractor.handler, hex], rfl⟩

/-- Claim C7 witness: a concrete object-store fault produces the full
failure dict with the error message, and a concrete schema fault produces
the same shape without an error field. -/
theorem C7_failure_shape_witness :
    Extractor.handler ⟨some ("b"), some ("k"), some 1⟩
        ⟨.error ("NoSuchKey"), .ok ("")⟩
      = [(("bucket"), .str ("b")), (("key"), .str ("k")), (("valid"), .bool false),
         (("extracted_data"), .obj []), (("retry_count"), .num 2 0),
         (("error"), .str ("NoSuchKey"))] ∧
    getKey ("error")
      (Extractor.handler ⟨some ("b"), some ("k"), some 1⟩
        ⟨.ok (), .ok ("\x7b\"BankName\": \"Chase\"\x7d")⟩) = none :=
  ⟨C7_failure_shape.1 ⟨some ("b"), some ("k"), some 1⟩ ⟨.error ("NoSuchKey"), .ok ("")⟩
     ("b") ("k") ("NoSuchKey") rfl rfl rfl,
   (C7_failure_shape.2 ⟨some ("b"), some ("k"), some 1⟩
     ⟨.ok (), .ok ("\x7b\"BankName\": \"Chase\"\x7d")⟩ ("b") ("k") rfl rfl rfl rfl).2⟩

/-- Claim C8 counterexample: a successful validator invocation returns only
`{bucket, key, valid}` — there is no data field (empty or otherwise) in the
output, contrary to the claim that the result carries an empty data
object. -/
theorem C8_counterexample :
    InputValidator.handler ⟨none, some ("b"), some ("k")⟩
        ⟨.ok (), .ok ("\x7b\"is_bank_statement\": true\x7d")⟩
      = [(("bucket"), .str ("b")), (("key"), .str ("k")), (("valid"), .bool true)] ∧
    getKey ("data")
      (InputValidator.handler ⟨none, some ("b"), some ("k")⟩
        ⟨.ok (), .ok ("\x7b\"is_bank_statement\": true\x7d")⟩) = none ∧
    getKey ("extracted_data")
      (InputValidator.handler ⟨none, some ("b"), some ("k")⟩
        ⟨.ok (), .ok ("\x7b\"is_bank_statement\": true\x7d")⟩) = none := ⟨rfl, rfl, rfl⟩

/-- Claim C8 as amended: every validator invocation that reaches
classification (resolved non-empty bucket and key, successful object-store
read) outputs exactly `{bucket, key, valid: <classification result>}`, with
no data field and no retry_count field; when the structured parse of the
response succeeds, the classification result is exactly the parsed
boolean. -/
theorem C8_validator_output (ev : InputValidator.VEvent) (env : Env) (b k : String)
    (hres : InputValidator.resolveRef ev = .ok (some b, some k))
    (hbk : ¬(b = "" ∨ k = "")) (hs3 : env.s3 = .ok ()) :
    InputValidator.handler ev env
      = [(("bucket"), .str b), (("key"), .str k),
         (("valid"), .bool (InputValidator.validate_bank_statement env.agent))] ∧
    getKey ("retry_count") (InputValidator.handler ev env) = none ∧
    getKey ("data") (InputValidator.handler ev env) = none ∧
    getKey ("extracted_data") (InputValidator.handler ev env) = none ∧
    (∀ (raw : String) (bv : Bool), env.agent = .ok raw →
        parseStructured decodeValidation raw = .ok bv →
        InputValidator.validate_bank_statement env.agent = bv) := by
  rcases env with ⟨s3, ag⟩
  cases hs3
  have hout : InputValidator.handler ev ⟨.ok (), ag⟩
      = [(("bucket"), .str b), (("key"), .str k),
         (("valid"), .bool (InputValidator.validate_bank_statement ag))] := by
    simp [InputValidator.handler, InputValidator.handlerTry, hres, hbk]
  refine ⟨hout, ?_, ?_, ?_, ?_⟩
  · rw [hout]
    rfl
  · rw [hout]
    rfl
  · rw [hout]
    rfl
  · intro raw bv hag hp
    cases hag
    exact validate_of_parse raw bv hp

/-- Claim C8 witness: a concrete clean classification response parses to
true and the handler reports exactly that flag with no extra fields. -/
theorem C8_validator_output_witness :
    InputValidator.validate_bank_statement (.ok ("\x7b\"is_bank_statement\": true\x7d"))
      = true :=
  (C8_validator_output ⟨none, some ("b"), some ("k")⟩
      ⟨.ok (), .ok ("\x7b\"is_bank_statement\": true\x7d")⟩ ("b") ("k") rfl (by decide)
      rfl).2.2.2.2 ("\x7b\"is_bank_statement\": true\x7d") true rfl rfl

end DocPipeline
